import Mathlib

/-
Verification of the upload reliability layer of the invoice ETL job
(`src/drive_manager.py` and `src/load.py`), as a shallow embedding.

Modelling conventions:
  - The remote object store (Google Drive) is a value: lists of folders and
    files.  Remote API calls that can fail are driven by explicit oracles
    (per-call-site error injections), mirroring the statuses the HTTP client
    can raise (401/403 auth, 429 rate limit, 5xx server, other).
  - The local filesystem is a predicate `String -> Bool` (path exists or not).
  - `time.sleep` calls are recorded as numbers in a trace list instead of
    actually sleeping: the retry loop records seconds, the temp-file cleanup
    records tenths of a second.
  - Python functions that return `None`/a value map to `Option`; the boolean
    returned by `upload_invoice_json` is recovered from the labelled outcome
    via `UploadOutcome.toBool` (the source returns `True` on the lines that
    produce `Uploaded` and `SkippedAlreadyExists`, `False` elsewhere).
-/

namespace InvoiceETL

/-- A remote folder, as stored in Drive: display name and opaque id. -/
structure RFolder where
  name : String
  id : String
deriving DecidableEq, Repr

/-- A remote file: display name, parent folder id, opaque id. -/
structure RFile where
  name : String
  parent : String
  id : String
deriving DecidableEq, Repr

/-- The remote object store visible to the DriveManager. -/
structure RemoteStore where
  folders : List RFolder
  files : List RFile
deriving DecidableEq, Repr

/-- Mutable state of one `DriveManager` instance plus the ambient local
filesystem: `store` is the remote side, `folderCache` embeds
`self._folder_cache`, `delayed` embeds `self._delayed_cleanup_files`,
`localFs` tells which local staging-file paths currently exist. -/
structure DState where
  store : RemoteStore
  folderCache : List (String × String)
  delayed : List String
  localFs : String → Bool

/-- Lookup in the embedded `_folder_cache` dict. -/
def cacheLookup (cache : List (String × String)) (path : String) : Option String :=
  (cache.find? fun e => e.1 == path).map fun e => e.2

/-- Outcome of one attempt of the chunked transfer loop inside
`_execute_upload_with_retry` (source lines 274-300): the whole-attempt
`while` loop either returns a response, raises an `HttpError` with a status,
or raises some other exception. -/
inductive ChunkResult
  | success
  | http (status : Nat)
  | exc
deriving DecidableEq, Repr

/-- Result of `_execute_upload_with_retry` (source lines 272-302):
`ok` is whether a response was returned (`False` embeds returning `None`),
`attempts` counts loop iterations entered, `waits` lists the `time.sleep`
durations in seconds, in order. -/
structure RetryResult where
  ok : Bool
  attempts : Nat
  waits : List Nat
deriving DecidableEq, Repr

/-- The `for attempt in range(max_retries)` loop of
`_execute_upload_with_retry`, recursing on the number of remaining
iterations; `attempt` is the Python loop index. -/
def retryGo (chunk : Nat → ChunkResult) (maxRetries : Nat) :
    Nat → Nat → RetryResult
  | 0, _ => RetryResult.mk false 0 []
  | remaining + 1, attempt =>
    match chunk attempt with
    | ChunkResult.success => RetryResult.mk true 1 []
    | ChunkResult.http s =>
      if s == 429 then
        let w := 2 ^ attempt + 1
        let r := retryGo chunk maxRetries remaining (attempt + 1)
        RetryResult.mk r.ok (r.attempts + 1) (w :: r.waits)
      else if 500 ≤ s then
        let w := 2 ^ attempt + 1
        let r := retryGo chunk maxRetries remaining (attempt + 1)
        RetryResult.mk r.ok (r.attempts + 1) (w :: r.waits)
      else
        RetryResult.mk false 1 []
    | ChunkResult.exc =>
      if attempt < maxRetries - 1 then
        let r := retryGo chunk maxRetries remaining (attempt + 1)
        RetryResult.mk r.ok (r.attempts + 1) (2 ^ attempt :: r.waits)
      else
        RetryResult.mk false 1 []

/-- `DriveManager._execute_upload_with_retry(request, filename, max_retries)`:
on 429 or a 5xx status it sleeps `2 ** attempt + 1` seconds and moves to the
next attempt, on any other HTTP status it breaks out and returns `None`, on a
generic exception it sleeps `2 ** attempt` (when not on the last attempt) and
moves on. -/
def execute_upload_with_retry (chunk : Nat → ChunkResult) (maxRetries : Nat) :
    RetryResult :=
  retryGo chunk maxRetries maxRetries 0

/-- Outcome of one `os.unlink` call in the cleanup helpers: succeeds, raises
`PermissionError`, or raises some other exception. -/
inductive DelResult
  | ok
  | permErr
  | otherErr
deriving DecidableEq, Repr

/-- Result of `_cleanup_temp_file` (source lines 304-323): the local
filesystem and deferred-registry after the call, the `time.sleep` durations
in tenths of a second, the number of `os.unlink` attempts, and whether the
loop was left through the generic-exception `break` (source line 323). -/
structure CleanResult where
  fs : String → Bool
  delayed : List String
  delays : List Nat
  attempts : Nat
  broke : Bool

/-- The `for attempt in range(max_retries)` loop of `_cleanup_temp_file`:
each iteration sleeps `0.1 * (attempt + 1)` (recorded as `attempt + 1`) and
then attempts `os.unlink`; `PermissionError` on the last attempt registers
the path via `_schedule_delayed_cleanup`, any other exception breaks. -/
def cleanupGo (unlink : Nat → DelResult) (path : String) (maxRetries : Nat) :
    Nat → Nat → (String → Bool) → List String → CleanResult
  | 0, _, fs, delayed => CleanResult.mk fs delayed [] 0 false
  | remaining + 1, attempt, fs, delayed =>
    match unlink attempt with
    | DelResult.ok =>
      CleanResult.mk (fun q => if q == path then false else fs q) delayed
        [attempt + 1] 1 false
    | DelResult.permErr =>
      if attempt < maxRetries - 1 then
        let r := cleanupGo unlink path maxRetries remaining (attempt + 1) fs delayed
        CleanResult.mk r.fs r.delayed ((attempt + 1) :: r.delays) (r.attempts + 1) r.broke
      else
        CleanResult.mk fs (delayed ++ [path]) [attempt + 1] 1 false
    | DelResult.otherErr =>
      CleanResult.mk fs delayed [attempt + 1] 1 true

/-- `DriveManager._cleanup_temp_file(temp_file_path, filename, max_retries)`:
bounded deletion retries with linearly increasing delay; on exhaustion of
`PermissionError` retries the path is appended to
`self._delayed_cleanup_files`; the function never raises. -/
def cleanup_temp_file (unlink : Nat → DelResult) (path : String)
    (maxRetries : Nat) (fs : String → Bool) (delayed : List String) : CleanResult :=
  cleanupGo unlink path maxRetries maxRetries 0 fs delayed

/-- Error injection for `get_folder_id`: the status of an `HttpError` raised
by the `files().list` call or the `files().create` call, and the id Drive
assigns to a folder created by this call. -/
structure FolderOracle where
  listErr : Option Nat
  createErr : Option Nat
  freshId : String

/-- Remote traffic issued by one `get_folder_id` call: how many
`files().list` and how many `files().create` requests went out. -/
structure FolderTrace where
  listCalls : Nat
  createCalls : Nat
deriving DecidableEq, Repr

/-- `DriveManager.get_folder_id(folder_path, create_if_not_exists)` (source
lines 229-260): cache hit returns the cached id with no remote call;
otherwise it queries for a non-trashed folder of that exact name, takes the
first match, or creates the folder; an `HttpError` in either remote call is
caught at the bottom and yields `None` with nothing cached. -/
def get_folder_id (o : FolderOracle) (st : DState) (folderPath : String)
    (createIfNotExists : Bool) : Option String × DState × FolderTrace :=
  match cacheLookup st.folderCache folderPath with
  | some fid => (some fid, st, FolderTrace.mk 0 0)
  | none =>
    match o.listErr with
    | some _ => (none, st, FolderTrace.mk 1 0)
    | none =>
      match st.store.folders.filter fun f => f.name == folderPath with
      | f :: _ =>
        (some f.id,
         { st with folderCache := (folderPath, f.id) :: st.folderCache },
         FolderTrace.mk 1 0)
      | [] =>
        if createIfNotExists then
          match o.createErr with
          | some _ => (none, st, FolderTrace.mk 1 1)
          | none =>
            (some o.freshId,
             { st with
                store := { st.store with
                  folders := st.store.folders ++ [RFolder.mk folderPath o.freshId] },
                folderCache := (folderPath, o.freshId) :: st.folderCache },
             FolderTrace.mk 1 1)
        else (none, st, FolderTrace.mk 1 0)

/-- `DriveManager._get_file_id_in_folder(filename, folder_id)` (source lines
262-270): queries for a file of that name inside the folder and returns the
first match id; any `HttpError` is caught and yields `None`, indistinguishable
from the file being absent. -/
def get_file_id_in_folder (listErr : Option Nat) (st : DState)
    (filename folderId : String) : Option String :=
  match listErr with
  | some _ => none
  | none =>
    match st.store.files.filter fun f => f.name == filename && f.parent == folderId with
    | f :: _ => some f.id
    | [] => none

/-- The labelled return points of `upload_invoice_json`.  The source function
returns a plain `bool`; the labels record which return statement produced it
(`Uploaded` is the `True` of line 206, `SkippedAlreadyExists` the `True` of
line 166, the `Failed` labels are the `False` returns of lines 153, 160, 209
and 218). -/
inductive UploadOutcome
  | Uploaded
  | SkippedAlreadyExists
  | FailedAuth
  | FailedDirectory
  | FailedTransfer
  | FailedHttp
deriving DecidableEq, Repr

/-- The boolean `upload_invoice_json` actually returns for each labelled
return point. -/
def UploadOutcome.toBool : UploadOutcome → Bool
  | UploadOutcome.Uploaded => true
  | UploadOutcome.SkippedAlreadyExists => true
  | _ => false

/-- Error injection and generated names for one `upload_invoice_json` call:
`validateOk` is the result of the entry `validate_connection()`,
`entryAuthOk` whether the entry `authenticate()` succeeds when validation
failed, `folder` drives `get_folder_id`, `fileListErr` injects an `HttpError`
into the existence check, `chunk` drives the transfer attempts, `tempPath` is
the unique staging-file name `tempfile` picks, `freshFileId` the id Drive
assigns to the uploaded file, `unlink` drives the cleanup attempts, and
`reauthOk` whether `force_reauthentication()` would succeed. -/
structure UploadOracle where
  validateOk : Bool
  entryAuthOk : Bool
  folder : FolderOracle
  fileListErr : Option Nat
  chunk : Nat → ChunkResult
  tempPath : String
  freshFileId : String
  unlink : Nat → DelResult
  reauthOk : Bool

/-- Observables of one `upload_invoice_json` call: the staging file it
created (if any), how many times `force_reauthentication` ran, the transfer
result (if a transfer was started), and the cleanup result (if the `finally`
block found a staging file to remove). -/
structure UploadTrace where
  tempCreated : Option String
  reauthCalls : Nat
  transfer : Option RetryResult
  cleanup : Option CleanResult

/-- Result of one `upload_invoice_json` call. -/
structure UploadResult where
  outcome : UploadOutcome
  st : DState
  trace : UploadTrace

/-- Intermediate result of the `try` block body (source lines 157-209).
`result` is `Except.error status` when an `HttpError` escapes the body to the
handler of line 211 — which, as `uploadTryBody_ok` proves, never happens,
because every remote call inside the body catches `HttpError` itself. -/
structure TryBodyResult where
  result : Except Nat UploadOutcome
  st : DState
  tempFile : Option String
  transfer : Option RetryResult

/-- The `try` block body of `upload_invoice_json` (source lines 157-209):
resolve the folder, check existence (skip when found), write the staging
file, run the chunked transfer with retry, and on success the remote file
exists. -/
def uploadTryBody (o : UploadOracle) (filename folderPath : String)
    (st : DState) : TryBodyResult :=
  match get_folder_id o.folder st folderPath true with
  | (none, st1, _) => TryBodyResult.mk (Except.ok UploadOutcome.FailedDirectory) st1 none none
  | (some folderId, st1, _) =>
    match get_file_id_in_folder o.fileListErr st1 filename folderId with
    | some _ =>
      TryBodyResult.mk (Except.ok UploadOutcome.SkippedAlreadyExists) st1 none none
    | none =>
      let st2 := { st1 with localFs := fun q => if q == o.tempPath then true else st1.localFs q }
      let r := execute_upload_with_retry o.chunk 3
      if r.ok then
        let st3 := { st2 with store := { st2.store with
          files := st2.store.files ++ [RFile.mk filename folderId o.freshFileId] } }
        TryBodyResult.mk (Except.ok UploadOutcome.Uploaded) st3 (some o.tempPath) (some r)
      else
        TryBodyResult.mk (Except.ok UploadOutcome.FailedTransfer) st2 (some o.tempPath) (some r)

/-- The `finally` block of `upload_invoice_json` (source lines 224-226): when
a staging file was created and still exists, run `_cleanup_temp_file`. -/
def uploadFinally (o : UploadOracle) (st : DState) (tempFile : Option String) :
    DState × Option CleanResult :=
  match tempFile with
  | none => (st, none)
  | some p =>
    if st.localFs p then
      let c := cleanup_temp_file o.unlink p 5 st.localFs st.delayed
      ({ st with localFs := c.fs, delayed := c.delayed }, some c)
    else (st, none)

/-- `upload_invoice_json` with explicit recursion fuel standing for the call
stack: the `except HttpError` handler of lines 211-218 re-authenticates and
re-enters the whole function (with no retry counter in the source), so the
recursive call consumes one unit of fuel.  Fuel exhaustion maps to the stack
overflowing, which `uploadTryBody_ok` below shows cannot be reached. -/
def uploadGo (o : UploadOracle) (filename folderPath : String) :
    Nat → DState → UploadResult
  | 0, st =>
    UploadResult.mk UploadOutcome.FailedHttp st (UploadTrace.mk none 0 none none)
  | fuel + 1, st =>
    if !o.validateOk && !o.entryAuthOk then
      UploadResult.mk UploadOutcome.FailedAuth st (UploadTrace.mk none 0 none none)
    else
      let b := uploadTryBody o filename folderPath st
      match b.result with
      | Except.ok outcome =>
        let fc := uploadFinally o b.st b.tempFile
        UploadResult.mk outcome fc.1 (UploadTrace.mk b.tempFile 0 b.transfer fc.2)
      | Except.error status =>
        if (status == 401 || status == 403) && o.reauthOk then
          let inner := uploadGo o filename folderPath fuel b.st
          let fc := uploadFinally o inner.st b.tempFile
          UploadResult.mk inner.outcome fc.1
            (UploadTrace.mk b.tempFile (inner.trace.reauthCalls + 1) b.transfer fc.2)
        else
          let fc := uploadFinally o b.st b.tempFile
          UploadResult.mk UploadOutcome.FailedHttp fc.1
            (UploadTrace.mk b.tempFile 0 b.transfer fc.2)

/-- `DriveManager.upload_invoice_json(invoice_data, filename, folder_path)`
(source lines 143-226). -/
def upload_invoice_json (o : UploadOracle) (filename folderPath : String)
    (st : DState) : UploadResult :=
  uploadGo o filename folderPath 1 st

/-- The boolean value the Python `upload_invoice_json` returns to its caller. -/
def upload_invoice_json_bool (o : UploadOracle) (filename folderPath : String)
    (st : DState) : Bool :=
  (upload_invoice_json o filename folderPath st).outcome.toBool

/-- Result of `DriveManager.cleanup_delayed_files` (source lines 332-357):
the filesystem afterwards, the new `_delayed_cleanup_files` list
(`remaining_files`), the `cleaned_count`, and the paths on which `os.unlink`
was actually attempted, in order. -/
structure DelayedCleanupResult where
  fs : String → Bool
  remaining : List String
  cleaned : Nat
  unlinked : List String

/-- The `for temp_file_path in self._delayed_cleanup_files` loop of
`cleanup_delayed_files`: a path that no longer exists is skipped silently
(dropped from the registry, not unlinked, not counted); a path whose unlink
raises goes to `remaining_files`; a successful unlink increments
`cleaned_count`. -/
def delayedGo (raises : String → Bool) :
    (String → Bool) → List String → DelayedCleanupResult
  | fs, [] => DelayedCleanupResult.mk fs [] 0 []
  | fs, p :: rest =>
    if fs p then
      if raises p then
        let r := delayedGo raises fs rest
        DelayedCleanupResult.mk r.fs (p :: r.remaining) r.cleaned (p :: r.unlinked)
      else
        let r := delayedGo raises (fun q => if q == p then false else fs q) rest
        DelayedCleanupResult.mk r.fs r.remaining (r.cleaned + 1) (p :: r.unlinked)
    else
      let r := delayedGo raises fs rest
      DelayedCleanupResult.mk r.fs r.remaining r.cleaned r.unlinked

/-- `DriveManager.cleanup_delayed_files()` (source lines 332-357); `raises`
tells, per path, whether `os.unlink` raises on it during this pass. -/
def cleanup_delayed_files (raises : String → Bool) (fs : String → Bool)
    (delayed : List String) : DelayedCleanupResult :=
  delayedGo raises fs delayed

/-- Per-item behaviour seen by the batch loop of `load_invoices_to_drive`
(source lines 46-66): the item upload returns `True`, returns `False`, or
raises (covering both `generate_reference` and `upload_invoice_json`
raising — the surrounding `try` treats them alike). -/
inductive ItemBehavior
  | succeeds
  | returnsFalse
  | raises
deriving DecidableEq, Repr

/-- How the batch loop classifies the boolean returned by
`upload_invoice_json` (source lines 59-62). -/
def itemBehaviorOfReturn (b : Bool) : ItemBehavior :=
  if b then ItemBehavior.succeeds else ItemBehavior.returnsFalse

/-- The aggregate the batch run computes and logs (source lines 43-44 and
71-75) together with the boolean `load_invoices_to_drive` returns. -/
structure BatchSummary where
  succeeded : Nat
  failed : Nat
  total : Nat
  overall : Bool
deriving DecidableEq, Repr

/-- The `for invoice in invoices` loop of `load_invoices_to_drive`,
accumulating `successful_uploads` and `failed_uploads`; a raising item is
caught by the per-item `except` and counted as failed. -/
def uploadLoop : Nat → Nat → List ItemBehavior → Nat × Nat
  | s, f, [] => (s, f)
  | s, f, ItemBehavior.succeeds :: rest => uploadLoop (s + 1) f rest
  | s, f, ItemBehavior.returnsFalse :: rest => uploadLoop s (f + 1) rest
  | s, f, ItemBehavior.raises :: rest => uploadLoop s (f + 1) rest

/-- `load_invoices_to_drive(invoices)` (source lines 10-89): an empty input
returns `True` immediately (line 20-22); a raising `authenticate()` or a
failing `test_connection()` aborts the batch with `False` before any item is
attempted; otherwise the loop runs over every item and the final policy
(lines 77-85) reports `True` when all or some uploads succeeded and `False`
when none did. -/
def load_invoices_to_drive (authOk connOk : Bool)
    (invoices : List ItemBehavior) : BatchSummary :=
  if invoices.isEmpty then BatchSummary.mk 0 0 0 true
  else if !authOk then BatchSummary.mk 0 0 invoices.length false
  else if !connOk then BatchSummary.mk 0 0 invoices.length false
  else
    let sf := uploadLoop 0 0 invoices
    let total := invoices.length
    BatchSummary.mk sf.1 sf.2 total
      (if sf.1 == total then true else if 0 < sf.1 then true else false)

/-- The list 1, 2, ..., n starting at `start`: shape of the linearly
increasing cleanup delays. -/
def delaySeq (start : Nat) : Nat → List Nat
  | 0 => []
  | n + 1 => start :: delaySeq (start + 1) n

/-- Transfer script: rate-limited on the first two attempts, success on the
third. -/
def twoRateLimitsThenSuccess : Nat → ChunkResult :=
  fun a => if a < 2 then ChunkResult.http 429 else ChunkResult.success

/-- Transfer script: every attempt hits the rate limit. -/
def alwaysRateLimited : Nat → ChunkResult := fun _ => ChunkResult.http 429

/-- Transfer script: server error on the first attempt, success afterwards. -/
def serverErrorThenSuccess : Nat → ChunkResult :=
  fun a => if a == 0 then ChunkResult.http 503 else ChunkResult.success

/-- A fault-free upload oracle used by concrete witnesses. -/
def oClean : UploadOracle :=
  UploadOracle.mk true true (FolderOracle.mk none none "fld1") none
    (fun _ => ChunkResult.success) "tmp1" "f1" (fun _ => DelResult.ok) true

/-- Like `oClean` but with a fresh staging path and file id, for a second
upload in sequence. -/
def oClean2 : UploadOracle :=
  UploadOracle.mk true true (FolderOracle.mk none none "fld9") none
    (fun _ => ChunkResult.success) "tmp2" "f2" (fun _ => DelResult.ok) true

/-- Upload oracle whose transfer is rate-limited twice and then succeeds. -/
def oTwoRateLimits : UploadOracle :=
  UploadOracle.mk true true (FolderOracle.mk none none "fld1") none
    twoRateLimitsThenSuccess "tmp1" "f1" (fun _ => DelResult.ok) true

/-- Upload oracle whose transfer is rate-limited on every attempt. -/
def oAlwaysRateLimited : UploadOracle :=
  UploadOracle.mk true true (FolderOracle.mk none none "fld1") none
    alwaysRateLimited "tmp1" "f1" (fun _ => DelResult.ok) true

/-- Upload oracle for the C2 counterexample: the remote `files().list` of the
existence check raises an `HttpError` with status 401, everything else is
fault-free. -/
def oAuth401 : UploadOracle :=
  UploadOracle.mk true true (FolderOracle.mk none none "fldX") (some 401)
    (fun _ => ChunkResult.success) "tmp1" "f1" (fun _ => DelResult.ok) true

/-- Upload oracle for the C4 counterexample: `os.unlink` on the staging file
raises an exception that is not a `PermissionError`. -/
def oUnlinkOther : UploadOracle :=
  UploadOracle.mk true true (FolderOracle.mk none none "fld1") none
    (fun _ => ChunkResult.success) "tmp1" "f1" (fun _ => DelResult.otherErr) true

/-- Upload oracle whose `os.unlink` raises `PermissionError` on every
attempt, exhausting the cleanup retries. -/
def oUnlinkPerm : UploadOracle :=
  UploadOracle.mk true true (FolderOracle.mk none none "fld1") none
    (fun _ => ChunkResult.success) "tmp1" "f1" (fun _ => DelResult.permErr) true

/-- Initial state: empty remote store, empty cache and registry, no local
staging files. -/
def st0 : DState := DState.mk (RemoteStore.mk [] []) [] [] (fun _ => false)

/-- State in which folder `F` exists remotely and already holds a file named
`inv1.json`. -/
def stExisting : DState :=
  DState.mk
    (RemoteStore.mk [RFolder.mk "F" "fld1"] [RFile.mk "inv1.json" "fld1" "f0"])
    [] [] (fun _ => false)

/-- The state produced by resolving folder `F` against an empty store: the
folder was created remotely and its id cached. -/
def stFolderResolved : DState :=
  DState.mk (RemoteStore.mk [RFolder.mk "F" "fld1"] []) [("F", "fld1")] []
    (fun _ => false)

end InvoiceETL

namespace InvoiceETL

/- ------------------------------------------------------------------ -/
/- Helper lemmas                                                       -/
/- ------------------------------------------------------------------ -/

/-- The transfer retry loop never runs more iterations than remain. -/
theorem retryGo_attempts_le (chunk : Nat → ChunkResult) (m : Nat) :
    ∀ r a, (retryGo chunk m r a).attempts ≤ r := by
  intro r
  induction r with
  | zero => intro a; simp [retryGo]
  | succ n ih =>
    intro a
    simp only [retryGo]
    cases chunk a with
    | success => simp
    | http s =>
      by_cases h429 : (s == 429) = true
      · simpa [h429] using Nat.succ_le_succ (ih (a + 1))
      · by_cases h5 : 500 ≤ s
        · simpa [h429, h5] using Nat.succ_le_succ (ih (a + 1))
        · simp [h429, h5]
    | exc =>
      by_cases hlast : a < m - 1
      · simpa [hlast] using Nat.succ_le_succ (ih (a + 1))
      · simp [hlast]

/-- The cleanup loop runs at most the remaining number of iterations, and the
delays it records are `attempt + 1, attempt + 2, ...`, one per iteration. -/
theorem cleanupGo_delays (unlink : Nat → DelResult) (p : String) (m : Nat) :
    ∀ r a fs d, (cleanupGo unlink p m r a fs d).attempts ≤ r
      ∧ (cleanupGo unlink p m r a fs d).delays
          = delaySeq (a + 1) (cleanupGo unlink p m r a fs d).attempts := by
  intro r
  induction r with
  | zero => intro a fs d; simp [cleanupGo, delaySeq]
  | succ n ih =>
    intro a fs d
    simp only [cleanupGo]
    cases unlink a with
    | ok => simp [delaySeq]
    | permErr =>
      by_cases hlast : a < m - 1
      · have h2 := ih (a + 1) fs d
        refine ⟨by simpa [hlast] using Nat.succ_le_succ h2.1, ?_⟩
        simp [hlast, delaySeq, h2.2]
      · simp [hlast, delaySeq]
    | otherErr => simp [delaySeq]

/-- Unless the cleanup loop breaks on a deletion error other than
`PermissionError`, the path is gone from the filesystem or registered for
deferred cleanup when the loop ends. -/
theorem cleanupGo_releases (unlink : Nat → DelResult) (p : String) (m : Nat) :
    ∀ r a fs d, a + r = m → 1 ≤ r →
      (cleanupGo unlink p m r a fs d).fs p = false
      ∨ p ∈ (cleanupGo unlink p m r a fs d).delayed
      ∨ (cleanupGo unlink p m r a fs d).broke = true := by
  intro r
  induction r with
  | zero => intro a fs d _ h1; omega
  | succ n ih =>
    intro a fs d hm _
    simp only [cleanupGo]
    cases unlink a with
    | ok => left; simp
    | permErr =>
      by_cases hlast : a < m - 1
      · have hn : 1 ≤ n := by omega
        simpa [hlast] using ih (a + 1) fs d (by omega) hn
      · right; left; simp [hlast]
    | otherErr => right; right; simp

/-- The `try` body of `upload_invoice_json` never lets an `HttpError` escape:
every remote call inside it catches `HttpError` itself (`get_folder_id` at
line 258, `_get_file_id_in_folder` at line 269, `_execute_upload_with_retry`
at line 285), so the handler of source lines 211-218 is unreachable. -/
theorem uploadTryBody_ok (o : UploadOracle) (fn fp : String) (st : DState) :
    ∃ out, (uploadTryBody o fn fp st).result = Except.ok out := by
  unfold uploadTryBody
  repeat' split
  all_goals try exact ⟨_, rfl⟩
  all_goals
    cases hro : (execute_upload_with_retry o.chunk 3).ok <;>
      simp only [hro, Bool.false_eq_true, if_false, if_true] <;> exact ⟨_, rfl⟩

/-- Shape of an upload call whose entry validation or entry re-authentication
path lets it proceed and whose `try` body returns normally (which it always
does, by `uploadTryBody_ok`). -/
theorem upload_ok_shape (o : UploadOracle) (fn fp : String) (st : DState)
    (hv : (!o.validateOk && !o.entryAuthOk) = false) (out : UploadOutcome)
    (hb : (uploadTryBody o fn fp st).result = Except.ok out) :
    upload_invoice_json o fn fp st =
      UploadResult.mk out
        (uploadFinally o (uploadTryBody o fn fp st).st (uploadTryBody o fn fp st).tempFile).1
        (UploadTrace.mk (uploadTryBody o fn fp st).tempFile 0
          (uploadTryBody o fn fp st).transfer
          (uploadFinally o (uploadTryBody o fn fp st).st (uploadTryBody o fn fp st).tempFile).2) := by
  show uploadGo o fn fp (0 + 1) st = _
  simp only [uploadGo, hv, Bool.false_eq_true, if_false]
  simp [hb]

/-- Shape of an upload call that fails entry validation and entry
re-authentication (source lines 147-153). -/
theorem upload_entry_auth_failure (o : UploadOracle) (fn fp : String) (st : DState)
    (hv : (!o.validateOk && !o.entryAuthOk) = true) :
    upload_invoice_json o fn fp st =
      UploadResult.mk UploadOutcome.FailedAuth st (UploadTrace.mk none 0 none none) := by
  show uploadGo o fn fp (0 + 1) st = _
  simp [uploadGo, hv]

/-- Looking up a key just inserted at the front of the cache finds it. -/
theorem cacheLookup_cons_self (cache : List (String × String)) (p v : String) :
    cacheLookup ((p, v) :: cache) p = some v := by
  simp [cacheLookup]

/-- A fault-free `get_folder_id` call succeeds with some id, caches it,
leaves remote files and local state untouched, and agrees with any id already
cached for the path. -/
theorem get_folder_id_clean (o : FolderOracle) (st : DState) (p : String)
    (hl : o.listErr = none) (hc : o.createErr = none) :
    ∃ fid st1 tr, get_folder_id o st p true = (some fid, st1, tr)
      ∧ st1.store.files = st.store.files
      ∧ st1.localFs = st.localFs
      ∧ st1.delayed = st.delayed
      ∧ cacheLookup st1.folderCache p = some fid
      ∧ (∀ c, cacheLookup st.folderCache p = some c → fid = c) := by
  unfold get_folder_id
  cases hcl : cacheLookup st.folderCache p with
  | some c =>
    simp only [hcl]
    refine ⟨c, st, FolderTrace.mk 0 0, rfl, rfl, rfl, rfl, hcl, ?_⟩
    intro c2 hc2
    exact Option.some.inj hc2
  | none =>
    simp only [hcl, hl]
    cases hft : st.store.folders.filter (fun f => f.name == p) with
    | cons f rest =>
      simp only [hft]
      refine ⟨f.id, _, FolderTrace.mk 1 0, rfl, rfl, rfl, rfl,
        cacheLookup_cons_self .., ?_⟩
      intro c2 hc2
      exact absurd hc2 (by simp)
    | nil =>
      simp only [hft, hc, if_true]
      refine ⟨o.freshId, _, FolderTrace.mk 1 1, rfl, rfl, rfl, rfl,
        cacheLookup_cons_self .., ?_⟩
      intro c2 hc2
      exact absurd hc2 (by simp)

/-- A transfer whose first attempt succeeds returns after exactly one attempt
with no waits. -/
theorem execute_upload_with_retry_first_success (chunk : Nat → ChunkResult)
    (ht : chunk 0 = ChunkResult.success) :
    execute_upload_with_retry chunk 3 = RetryResult.mk true 1 [] := by
  show retryGo chunk 3 (2 + 1) 0 = RetryResult.mk true 1 []
  simp only [retryGo, ht]

/-- A fault-free upload run: the folder resolves to some id (consistent with
any previously cached id for the path); when no remote file of that name
exists in that folder, the run uploads and appends exactly one remote file;
when one exists, it skips and leaves the remote store untouched.  In both
cases the final folder cache maps the folder path to the resolved id. -/
theorem upload_clean_run (o : UploadOracle) (fn fp : String) (st : DState)
    (hv : o.validateOk = true) (hl : o.folder.listErr = none)
    (hc : o.folder.createErr = none) (hf : o.fileListErr = none)
    (ht : o.chunk 0 = ChunkResult.success) :
    ∃ fid,
      cacheLookup (upload_invoice_json o fn fp st).st.folderCache fp = some fid
    ∧ (∀ c, cacheLookup st.folderCache fp = some c → fid = c)
    ∧ ((st.store.files.filter (fun f => f.name == fn && f.parent == fid) = []
          ∧ (upload_invoice_json o fn fp st).outcome = UploadOutcome.Uploaded
          ∧ (upload_invoice_json o fn fp st).st.store.files
              = st.store.files ++ [RFile.mk fn fid o.freshFileId])
       ∨ (st.store.files.filter (fun f => f.name == fn && f.parent == fid) ≠ []
          ∧ (upload_invoice_json o fn fp st).outcome
              = UploadOutcome.SkippedAlreadyExists
          ∧ (upload_invoice_json o fn fp st).st.store.files = st.store.files)) := by
  obtain ⟨fid, st1, tr, hres, hfiles, hlfs, hdel, hcache, hprev⟩ :=
    get_folder_id_clean o.folder st fp hl hc
  have hv2 : (!o.validateOk && !o.entryAuthOk) = false := by simp [hv]
  refine ⟨fid, ?_⟩
  cases hfl : st.store.files.filter (fun f => f.name == fn && f.parent == fid) with
  | nil =>
    have hex : get_file_id_in_folder o.fileListErr st1 fn fid = none := by
      unfold get_file_id_in_folder
      rw [hf, hfiles, hfl]
    have hB : uploadTryBody o fn fp st =
        TryBodyResult.mk (Except.ok UploadOutcome.Uploaded)
          (DState.mk
            (RemoteStore.mk st1.store.folders
              (st1.store.files ++ [RFile.mk fn fid o.freshFileId]))
            st1.folderCache st1.delayed
            (fun q => if q == o.tempPath then true else st1.localFs q))
          (some o.tempPath) (some (RetryResult.mk true 1 [])) := by
      unfold uploadTryBody
      simp only [hres, hex, execute_upload_with_retry_first_success o.chunk ht]
      simp
    rw [upload_ok_shape o fn fp st hv2 UploadOutcome.Uploaded (by rw [hB])]
    rw [hB]
    refine ⟨?_, ?_, Or.inl ⟨rfl, rfl, ?_⟩⟩
    · simp [uploadFinally, hcache]
    · exact hprev
    · simp [uploadFinally, hfiles]
  | cons f rest =>
    have hex : get_file_id_in_folder o.fileListErr st1 fn fid = some f.id := by
      unfold get_file_id_in_folder
      rw [hf, hfiles, hfl]
    have hB : uploadTryBody o fn fp st =
        TryBodyResult.mk (Except.ok UploadOutcome.SkippedAlreadyExists)
          st1 none none := by
      unfold uploadTryBody
      simp only [hres, hex]
    rw [upload_ok_shape o fn fp st hv2 UploadOutcome.SkippedAlreadyExists (by rw [hB])]
    rw [hB]
    refine ⟨?_, hprev, Or.inr ⟨by simp [hfl], rfl, ?_⟩⟩
    · simpa [uploadFinally] using hcache
    · simpa [uploadFinally] using hfiles

/- ------------------------------------------------------------------ -/
/- Claim theorems                                                      -/
/- ------------------------------------------------------------------ -/

/-- C3: a chunk-level transient error (429 rate limit or 5xx server error)
makes `_execute_upload_with_retry` sleep `2 ^ attempt + 1` seconds and retry,
up to the ceiling of 3 attempts; rate-limit on the first two attempts with
success on the third yields a returned response (hence `Uploaded` at the
upload level) after exactly 3 attempts with waits 2 and 3 seconds; a transfer
that is always rate-limited returns `None` (hence `Failed`) after exactly 3
attempts; any other HTTP status aborts after the first attempt with no retry
and no wait. -/
theorem retry_backoff_bounded (chunk : Nat → ChunkResult) (s : Nat)
    (h0 : chunk 0 = ChunkResult.http s) (h429 : s ≠ 429) (h5 : s < 500) :
    (∀ c : Nat → ChunkResult, (execute_upload_with_retry c 3).attempts ≤ 3)
  ∧ execute_upload_with_retry twoRateLimitsThenSuccess 3 = RetryResult.mk true 3 [2, 3]
  ∧ execute_upload_with_retry serverErrorThenSuccess 3 = RetryResult.mk true 2 [2]
  ∧ execute_upload_with_retry alwaysRateLimited 3 = RetryResult.mk false 3 [2, 3, 5]
  ∧ (upload_invoice_json oTwoRateLimits "inv1.json" "F" st0).outcome = UploadOutcome.Uploaded
  ∧ (upload_invoice_json oTwoRateLimits "inv1.json" "F" st0).trace.transfer
      = some (RetryResult.mk true 3 [2, 3])
  ∧ (upload_invoice_json oAlwaysRateLimited "inv1.json" "F" st0).outcome
      = UploadOutcome.FailedTransfer
  ∧ (upload_invoice_json oAlwaysRateLimited "inv1.json" "F" st0).trace.transfer
      = some (RetryResult.mk false 3 [2, 3, 5])
  ∧ execute_upload_with_retry chunk 3 = RetryResult.mk false 1 [] := by
  refine ⟨fun c => retryGo_attempts_le c 3 3 0, by decide, by decide, by decide,
    by decide, by decide, by decide, by decide, ?_⟩
  show retryGo chunk 3 3 0 = RetryResult.mk false 1 []
  have hb : (s == 429) = false := by simp [h429]
  have hb5 : ¬ 500 ≤ s := by omega
  simp [retryGo, h0, hb, hb5]

/-- Witness for C3: a 404 on the first attempt aborts immediately, and the
rate-limit-twice script succeeds on the third attempt. -/
theorem retry_backoff_bounded_witness :
    execute_upload_with_retry (fun _ => ChunkResult.http 404) 3 = RetryResult.mk false 1 []
  ∧ execute_upload_with_retry twoRateLimitsThenSuccess 3 = RetryResult.mk true 3 [2, 3] := by
  have h := retry_backoff_bounded (fun _ => ChunkResult.http 404) 404 rfl
    (by decide) (by decide)
  exact ⟨h.2.2.2.2.2.2.2.2, h.2.1⟩

/-- C8: `_cleanup_temp_file` attempts immediate deletion with at most 5
attempts, each preceded by a linearly increasing delay (`0.1 * (attempt + 1)`
seconds, recorded here in tenths, so the delays are 1, 2, ... per attempt);
when every attempt raises `PermissionError` it registers the path in the
deferred-cleanup registry after exactly 5 attempts and returns instead of
raising (the model is a total function, mirroring that the source catches
every exception); when deletion attempt `k` succeeds after `PermissionError`
on the earlier attempts, it returns without registering the path and with the
staging file gone. -/
theorem cleanup_bounded_retry_policy (unlink : Nat → DelResult) (p : String)
    (fs : String → Bool) (delayed : List String) (k : Nat) (hk : k < 5)
    (hperm : ∀ j, j < k → unlink j = DelResult.permErr)
    (hok : unlink k = DelResult.ok) :
    (∀ u : Nat → DelResult, ∀ q : String, ∀ fs2 : String → Bool, ∀ d2 : List String,
        (cleanup_temp_file u q 5 fs2 d2).attempts ≤ 5
      ∧ (cleanup_temp_file u q 5 fs2 d2).delays
          = delaySeq 1 (cleanup_temp_file u q 5 fs2 d2).attempts)
  ∧ (∀ u : Nat → DelResult, (∀ a, a < 5 → u a = DelResult.permErr) →
      ∀ q : String, ∀ fs2 : String → Bool, ∀ d2 : List String,
        (cleanup_temp_file u q 5 fs2 d2).delayed = d2 ++ [q]
      ∧ (cleanup_temp_file u q 5 fs2 d2).attempts = 5)
  ∧ (cleanup_temp_file unlink p 5 fs delayed).delayed = delayed
  ∧ (cleanup_temp_file unlink p 5 fs delayed).fs p = false
  ∧ (cleanup_temp_file unlink p 5 fs delayed).attempts = k + 1 := by
  refine ⟨fun u q fs2 d2 => cleanupGo_delays u q 5 5 0 fs2 d2, ?_, ?_⟩
  · intro u hu q fs2 d2
    have h0 := hu 0 (by omega)
    have h1 := hu 1 (by omega)
    have h2 := hu 2 (by omega)
    have h3 := hu 3 (by omega)
    have h4 := hu 4 (by omega)
    constructor <;> simp [cleanup_temp_file, cleanupGo, h0, h1, h2, h3, h4]
  · interval_cases k
    · refine ⟨?_, ?_, ?_⟩ <;> simp [cleanup_temp_file, cleanupGo, hok]
    · have h0 := hperm 0 (by omega)
      refine ⟨?_, ?_, ?_⟩ <;> simp [cleanup_temp_file, cleanupGo, hok, h0]
    · have h0 := hperm 0 (by omega)
      have h1 := hperm 1 (by omega)
      refine ⟨?_, ?_, ?_⟩ <;> simp [cleanup_temp_file, cleanupGo, hok, h0, h1]
    · have h0 := hperm 0 (by omega)
      have h1 := hperm 1 (by omega)
      have h2 := hperm 2 (by omega)
      refine ⟨?_, ?_, ?_⟩ <;> simp [cleanup_temp_file, cleanupGo, hok, h0, h1, h2]
    · have h0 := hperm 0 (by omega)
      have h1 := hperm 1 (by omega)
      have h2 := hperm 2 (by omega)
      have h3 := hperm 3 (by omega)
      refine ⟨?_, ?_, ?_⟩ <;> simp [cleanup_temp_file, cleanupGo, hok, h0, h1, h2, h3]

/-- Witness for C8: success on the third attempt after two permission errors
removes the file, registers nothing, and used 3 attempts. -/
theorem cleanup_bounded_retry_policy_witness :
    (∀ u : Nat → DelResult, ∀ q : String, ∀ fs2 : String → Bool, ∀ d2 : List String,
        (cleanup_temp_file u q 5 fs2 d2).attempts ≤ 5
      ∧ (cleanup_temp_file u q 5 fs2 d2).delays
          = delaySeq 1 (cleanup_temp_file u q 5 fs2 d2).attempts)
  ∧ (∀ u : Nat → DelResult, (∀ a, a < 5 → u a = DelResult.permErr) →
      ∀ q : String, ∀ fs2 : String → Bool, ∀ d2 : List String,
        (cleanup_temp_file u q 5 fs2 d2).delayed = d2 ++ [q]
      ∧ (cleanup_temp_file u q 5 fs2 d2).attempts = 5)
  ∧ (cleanup_temp_file (fun a => if a < 2 then DelResult.permErr else DelResult.ok)
      "tmp1" 5 (fun q => q == "tmp1") []).delayed = []
  ∧ (cleanup_temp_file (fun a => if a < 2 then DelResult.permErr else DelResult.ok)
      "tmp1" 5 (fun q => q == "tmp1") []).fs "tmp1" = false
  ∧ (cleanup_temp_file (fun a => if a < 2 then DelResult.permErr else DelResult.ok)
      "tmp1" 5 (fun q => q == "tmp1") []).attempts = 2 + 1 :=
  cleanup_bounded_retry_policy
    (fun a => if a < 2 then DelResult.permErr else DelResult.ok)
    "tmp1" (fun q => q == "tmp1") [] 2 (by omega)
    (fun j hj => by interval_cases j <;> rfl) (by rfl)

/-- C2 counterexample: a 401 raised by the remote listing call of the
existence check (while the document is already present remotely) triggers no
session invalidation, no re-authentication and no retry of the upload —
`_get_file_id_in_folder` swallows the `HttpError` and returns `None`, the
upload proceeds as if the file were absent and creates a duplicate remote
object, contradicting the claim that a 401/403 during the upload triggers
invalidation, one re-authentication and exactly one retry. -/
theorem upload_auth_retry_counterexample :
    oAuth401.fileListErr = some 401
  ∧ (upload_invoice_json oAuth401 "inv1.json" "F" stExisting).trace.reauthCalls = 0
  ∧ (upload_invoice_json oAuth401 "inv1.json" "F" stExisting).outcome
      = UploadOutcome.Uploaded
  ∧ ((upload_invoice_json oAuth401 "inv1.json" "F" stExisting).st.store.files.filter
      fun f => f.name == "inv1.json").length = 2 :=
  ⟨rfl, by decide, by decide, by decide⟩

/-- C2 amended: authorization failures (401/403) raised by the remote calls
inside the upload are caught by the per-call handlers (`get_folder_id`
returns `None`, `_get_file_id_in_folder` treats the error as file-absent, the
transfer loop aborts the attempt), so `upload_invoice_json` never invokes
`force_reauthentication` and never retries the full upload: every execution
performs zero auth-triggered retries, hence in particular never more than
one. -/
theorem upload_never_reauthenticates (o : UploadOracle) (fn fp : String)
    (st : DState) :
    (upload_invoice_json o fn fp st).trace.reauthCalls = 0 := by
  by_cases hv : (!o.validateOk && !o.entryAuthOk) = true
  · rw [upload_entry_auth_failure o fn fp st hv]
  · obtain ⟨out, hb⟩ := uploadTryBody_ok o fn fp st
    rw [upload_ok_shape o fn fp st (by simpa using hv) out hb]

/-- C4 counterexample: when `os.unlink` raises an exception that is not a
`PermissionError`, `_cleanup_temp_file` hits the generic-exception branch of
source line 321 and breaks out without registering the path, so after the
call terminates with outcome `Uploaded` the staging file still exists and is
absent from the deferred-cleanup registry. -/
theorem staging_release_counterexample :
    (upload_invoice_json oUnlinkOther "inv1.json" "F" st0).trace.tempCreated
      = some "tmp1"
  ∧ (upload_invoice_json oUnlinkOther "inv1.json" "F" st0).outcome
      = UploadOutcome.Uploaded
  ∧ (upload_invoice_json oUnlinkOther "inv1.json" "F" st0).st.localFs "tmp1" = true
  ∧ (upload_invoice_json oUnlinkOther "inv1.json" "F" st0).st.delayed = [] :=
  ⟨by decide, by decide, by decide, by decide⟩

/-- C4 amended: for every terminal outcome, the staging file created during
the call either no longer exists at its path, or is present in the
deferred-cleanup registry, or the deletion loop was left through the
generic-exception break of `_cleanup_temp_file` (a deletion failure other
than `PermissionError`), in which case the file remains on disk
unregistered. -/
theorem staging_release_amended (o : UploadOracle) (fn fp : String)
    (st : DState) (p : String)
    (h : (upload_invoice_json o fn fp st).trace.tempCreated = some p) :
    (upload_invoice_json o fn fp st).st.localFs p = false
  ∨ p ∈ (upload_invoice_json o fn fp st).st.delayed
  ∨ ∃ c, (upload_invoice_json o fn fp st).trace.cleanup = some c
      ∧ c.broke = true := by
  by_cases hv : (!o.validateOk && !o.entryAuthOk) = true
  · rw [upload_entry_auth_failure o fn fp st hv] at h
    exact absurd h (by simp)
  · obtain ⟨out, hb⟩ := uploadTryBody_ok o fn fp st
    rw [upload_ok_shape o fn fp st (by simpa using hv) out hb] at h ⊢
    simp only at h ⊢
    rw [h] at *
    unfold uploadFinally
    by_cases hfs : (uploadTryBody o fn fp st).st.localFs p = true
    · simp only [hfs, if_true]
      have := cleanupGo_releases o.unlink p 5 5 0
        (uploadTryBody o fn fp st).st.localFs (uploadTryBody o fn fp st).st.delayed
        (by omega) (by omega)
      rcases this with hc | hc | hc
      · exact Or.inl hc
      · exact Or.inr (Or.inl hc)
      · exact Or.inr (Or.inr ⟨_, rfl, hc⟩)
    · simp only [Bool.not_eq_true] at hfs
      simp [hfs]

/-- C1: uploading the same (name, folder) twice in sequence against a
fault-free remote whose store initially holds no object of that name yields
`Uploaded` on the first call and `SkippedAlreadyExists` on the second (the
existence check finds the object), the second call leaves the remote store
unchanged, and afterwards the store contains exactly one object with that
name — the one the first call created in the resolved folder. -/
theorem upload_idempotent_pair (o1 o2 : UploadOracle) (st : DState)
    (fn fp : String)
    (h1v : o1.validateOk = true) (h1l : o1.folder.listErr = none)
    (h1c : o1.folder.createErr = none) (h1f : o1.fileListErr = none)
    (h1t : o1.chunk 0 = ChunkResult.success)
    (h2v : o2.validateOk = true) (h2l : o2.folder.listErr = none)
    (h2c : o2.folder.createErr = none) (h2f : o2.fileListErr = none)
    (h2t : o2.chunk 0 = ChunkResult.success)
    (hfresh : ∀ f ∈ st.store.files, f.name ≠ fn) :
    (upload_invoice_json o1 fn fp st).outcome = UploadOutcome.Uploaded
  ∧ (upload_invoice_json o2 fn fp (upload_invoice_json o1 fn fp st).st).outcome
      = UploadOutcome.SkippedAlreadyExists
  ∧ (upload_invoice_json o2 fn fp (upload_invoice_json o1 fn fp st).st).st.store.files
      = (upload_invoice_json o1 fn fp st).st.store.files
  ∧ ∃ fid,
      (upload_invoice_json o1 fn fp st).st.store.files.filter
          (fun f => f.name == fn)
        = [RFile.mk fn fid o1.freshFileId]
    ∧ cacheLookup (upload_invoice_json o1 fn fp st).st.folderCache fp
        = some fid := by
  obtain ⟨fid, hcache1, _, hbranch1⟩ :=
    upload_clean_run o1 fn fp st h1v h1l h1c h1f h1t
  have hnil : ∀ fid2 : String,
      st.store.files.filter (fun f => f.name == fn && f.parent == fid2) = [] := by
    intro fid2
    apply List.filter_eq_nil_iff.mpr
    intro f hfm
    simp [hfresh f hfm]
  rcases hbranch1 with ⟨_, hout1, hfiles1⟩ | ⟨hne, _, _⟩
  swap
  · exact absurd (hnil fid) hne
  obtain ⟨fid2, hcache2, hprev2, hbranch2⟩ :=
    upload_clean_run o2 fn fp (upload_invoice_json o1 fn fp st).st h2v h2l h2c h2f h2t
  have hfid2 : fid2 = fid := hprev2 fid hcache1
  subst hfid2
  have hflne :
      (upload_invoice_json o1 fn fp st).st.store.files.filter
        (fun f => f.name == fn && f.parent == fid2) ≠ [] := by
    rw [hfiles1, List.filter_append, hnil fid2]
    simp
  rcases hbranch2 with ⟨hempty, _, _⟩ | ⟨_, hout2, hfiles2⟩
  · exact absurd hempty hflne
  refine ⟨hout1, hout2, hfiles2, fid2, ?_, hcache1⟩
  rw [hfiles1, List.filter_append]
  have hn : st.store.files.filter (fun f => f.name == fn) = [] := by
    apply List.filter_eq_nil_iff.mpr
    intro f hfm
    simp [hfresh f hfm]
  rw [hn]
  simp

/-- Witness for C1: two fault-free uploads of `inv1.json` into folder `F`
starting from the empty store. -/
theorem upload_idempotent_pair_witness :
    (upload_invoice_json oClean "inv1.json" "F" st0).outcome
      = UploadOutcome.Uploaded
  ∧ (upload_invoice_json oClean2 "inv1.json" "F"
        (upload_invoice_json oClean "inv1.json" "F" st0).st).outcome
      = UploadOutcome.SkippedAlreadyExists
  ∧ (upload_invoice_json oClean2 "inv1.json" "F"
        (upload_invoice_json oClean "inv1.json" "F" st0).st).st.store.files
      = (upload_invoice_json oClean "inv1.json" "F" st0).st.store.files
  ∧ ∃ fid,
      (upload_invoice_json oClean "inv1.json" "F" st0).st.store.files.filter
          (fun f => f.name == "inv1.json")
        = [RFile.mk "inv1.json" fid oClean.freshFileId]
    ∧ cacheLookup (upload_invoice_json oClean "inv1.json" "F" st0).st.folderCache "F"
        = some fid :=
  upload_idempotent_pair oClean oClean2 st0 "inv1.json" "F"
    rfl rfl rfl rfl rfl rfl rfl rfl rfl rfl
    (by intro f hf; simp [st0] at hf)

/-- C9: a fault-free upload returns the same value `True` whether the
document name already exists in the target folder (skip) or the document is
freshly transferred (upload); the batch loop therefore classifies both as a
success and cannot distinguish `Uploaded` from `SkippedAlreadyExists` from
the returned boolean. -/
theorem upload_skip_indistinguishable (o : UploadOracle) (fn fp : String)
    (st : DState) (hv : o.validateOk = true) (hl : o.folder.listErr = none)
    (hc : o.folder.createErr = none) (hf : o.fileListErr = none)
    (ht : o.chunk 0 = ChunkResult.success) :
    ((upload_invoice_json o fn fp st).outcome = UploadOutcome.Uploaded
      ∨ (upload_invoice_json o fn fp st).outcome
          = UploadOutcome.SkippedAlreadyExists)
  ∧ upload_invoice_json_bool o fn fp st = true
  ∧ itemBehaviorOfReturn (upload_invoice_json_bool o fn fp st)
      = ItemBehavior.succeeds
  ∧ UploadOutcome.toBool UploadOutcome.SkippedAlreadyExists
      = UploadOutcome.toBool UploadOutcome.Uploaded := by
  obtain ⟨fid, _, _, hbr⟩ := upload_clean_run o fn fp st hv hl hc hf ht
  rcases hbr with ⟨_, hout, _⟩ | ⟨_, hout, _⟩ <;>
    simp [upload_invoice_json_bool, hout, UploadOutcome.toBool,
      itemBehaviorOfReturn]

/-- Witness for C9: the skip case — uploading a name that already exists in
the target folder returns `True` and is classified as a success. -/
theorem upload_skip_indistinguishable_witness :
    ((upload_invoice_json oClean "inv1.json" "F" stExisting).outcome
        = UploadOutcome.Uploaded
      ∨ (upload_invoice_json oClean "inv1.json" "F" stExisting).outcome
          = UploadOutcome.SkippedAlreadyExists)
  ∧ upload_invoice_json_bool oClean "inv1.json" "F" stExisting = true
  ∧ itemBehaviorOfReturn (upload_invoice_json_bool oClean "inv1.json" "F" stExisting)
      = ItemBehavior.succeeds
  ∧ UploadOutcome.toBool UploadOutcome.SkippedAlreadyExists
      = UploadOutcome.toBool UploadOutcome.Uploaded :=
  upload_skip_indistinguishable oClean "inv1.json" "F" stExisting
    rfl rfl rfl rfl rfl

/-- C7: resolving the same folder path twice within one run issues at most
one folder-lookup/create round against the remote store: a successful first
resolution caches the returned id (issuing at most one list and one create
request), and the second resolution returns the cached id with zero remote
calls and no state change. -/
theorem folder_cache_single_remote_round (o1 o2 : FolderOracle) (st : DState)
    (p fid : String) (st1 : DState) (tr1 : FolderTrace)
    (h : get_folder_id o1 st p true = (some fid, st1, tr1)) :
    cacheLookup st1.folderCache p = some fid
  ∧ get_folder_id o2 st1 p true = (some fid, st1, FolderTrace.mk 0 0)
  ∧ tr1.listCalls ≤ 1 ∧ tr1.createCalls ≤ 1 := by
  unfold get_folder_id at h
  cases hcl : cacheLookup st.folderCache p with
  | some c =>
    rw [hcl] at h
    simp only [Prod.mk.injEq, Option.some.injEq] at h
    obtain ⟨ha, hb, hc2⟩ := h
    subst ha
    subst hb
    subst hc2
    exact ⟨hcl, by simp [get_folder_id, hcl], by decide, by decide⟩
  | none =>
    rw [hcl] at h
    cases hle : o1.listErr with
    | some e => rw [hle] at h; simp at h
    | none =>
      rw [hle] at h
      cases hft : st.store.folders.filter (fun f => f.name == p) with
      | cons f rest =>
        rw [hft] at h
        simp only [Prod.mk.injEq, Option.some.injEq] at h
        obtain ⟨ha, hb, hc2⟩ := h
        subst ha
        subst hb
        subst hc2
        refine ⟨cacheLookup_cons_self .., ?_, by decide, by decide⟩
        simp [get_folder_id, cacheLookup_cons_self]
      | nil =>
        rw [hft] at h
        simp only [if_true] at h
        cases hce : o1.createErr with
        | some e => rw [hce] at h; simp at h
        | none =>
          rw [hce] at h
          simp only [Prod.mk.injEq, Option.some.injEq] at h
          obtain ⟨ha, hb, hc2⟩ := h
          subst ha
          subst hb
          subst hc2
          refine ⟨cacheLookup_cons_self .., ?_, by decide, by decide⟩
          simp [get_folder_id, cacheLookup_cons_self]

/-- Witness for C7: resolving folder `F` on the empty store creates it with
one list and one create request; resolving again is a pure cache hit. -/
theorem folder_cache_single_remote_round_witness :
    cacheLookup stFolderResolved.folderCache "F" = some "fld1"
  ∧ get_folder_id (FolderOracle.mk none none "fldZ") stFolderResolved "F" true
      = (some "fld1", stFolderResolved, FolderTrace.mk 0 0)
  ∧ (FolderTrace.mk 1 1).listCalls ≤ 1 ∧ (FolderTrace.mk 1 1).createCalls ≤ 1 :=
  folder_cache_single_remote_round (FolderOracle.mk none none "fld1")
    (FolderOracle.mk none none "fldZ") st0 "F" "fld1" stFolderResolved
    (FolderTrace.mk 1 1) rfl

/-- The count of items satisfying a predicate plus the count of those
failing it is the length of the list. -/
theorem countP_add_countP_not {α : Type} (p : α → Bool) (l : List α) :
    l.countP p + l.countP (fun a => !p a) = l.length := by
  induction l with
  | nil => simp
  | cons a t ih => cases hpa : p a <;> simp [List.countP_cons, hpa] <;> omega

/-- The batch loop returns the number of items that returned `True` and the
number that returned `False` or raised, added to the accumulators. -/
theorem uploadLoop_eq (l : List ItemBehavior) :
    ∀ s f, uploadLoop s f l =
      (s + l.countP (fun b => b == ItemBehavior.succeeds),
       f + l.countP (fun b => !(b == ItemBehavior.succeeds))) := by
  induction l with
  | nil => intro s f; simp [uploadLoop]
  | cons b rest ih =>
    intro s f
    cases b <;> simp [uploadLoop, ih, List.countP_cons] <;> omega

/-- A non-empty batch with working setup produces the loop counts and the
final success policy verbatim. -/
theorem load_invoices_nonempty (l : List ItemBehavior) (hl : l ≠ []) :
    load_invoices_to_drive true true l
      = BatchSummary.mk (l.countP (fun x => x == ItemBehavior.succeeds))
          (l.countP (fun x => !(x == ItemBehavior.succeeds))) l.length
          (if l.countP (fun x => x == ItemBehavior.succeeds) == l.length then true
           else if 0 < l.countP (fun x => x == ItemBehavior.succeeds) then true
           else false) := by
  have hemp : l.isEmpty = false := by
    cases l with
    | nil => exact absurd rfl hl
    | cons a t => rfl
  simp [load_invoices_to_drive, hemp, uploadLoop_eq]

/-- C5: in a batch where exactly one item fails (returns `False` or raises)
and the others succeed, the loop catches the fault, counts the item as
failed instead of aborting, continues over the remaining items, and the run
ends with `succeeded = N - 1` and `failed = 1` over `total = N`; no per-item
error escapes the loop. -/
theorem batch_partial_failure_isolation (invoices : List ItemBehavior)
    (h : invoices.countP (fun b => !(b == ItemBehavior.succeeds)) = 1) :
    (load_invoices_to_drive true true invoices).succeeded = invoices.length - 1
  ∧ (load_invoices_to_drive true true invoices).failed = 1
  ∧ (load_invoices_to_drive true true invoices).total = invoices.length := by
  have hne : invoices ≠ [] := by
    intro he
    rw [he] at h
    simp at h
  have hsum := countP_add_countP_not (fun b => b == ItemBehavior.succeeds) invoices
  rw [load_invoices_nonempty invoices hne]
  refine ⟨?_, h, rfl⟩
  show invoices.countP (fun x => x == ItemBehavior.succeeds) = invoices.length - 1
  omega

/-- Witness for C5: three items of which the middle one raises. -/
theorem batch_partial_failure_isolation_witness :
    (load_invoices_to_drive true true
        [ItemBehavior.succeeds, ItemBehavior.raises, ItemBehavior.succeeds]).succeeded
      = [ItemBehavior.succeeds, ItemBehavior.raises, ItemBehavior.succeeds].length - 1
  ∧ (load_invoices_to_drive true true
        [ItemBehavior.succeeds, ItemBehavior.raises, ItemBehavior.succeeds]).failed = 1
  ∧ (load_invoices_to_drive true true
        [ItemBehavior.succeeds, ItemBehavior.raises, ItemBehavior.succeeds]).total
      = [ItemBehavior.succeeds, ItemBehavior.raises, ItemBehavior.succeeds].length :=
  batch_partial_failure_isolation
    [ItemBehavior.succeeds, ItemBehavior.raises, ItemBehavior.succeeds] (by decide)

/-- C6: with working batch setup, the run reports overall success exactly
when at least one upload succeeded or the input was empty, and reports
failure only when every item failed; the empty batch returns the summary
`(0, 0, 0)` with overall success. -/
theorem batch_success_policy (authOk connOk : Bool)
    (invoices : List ItemBehavior) (hA : authOk = true) (hC : connOk = true) :
    load_invoices_to_drive authOk connOk [] = BatchSummary.mk 0 0 0 true
  ∧ ((load_invoices_to_drive authOk connOk invoices).overall = true ↔
      (invoices = [] ∨ 1 ≤ (load_invoices_to_drive authOk connOk invoices).succeeded))
  ∧ ((load_invoices_to_drive authOk connOk invoices).overall = false →
      (load_invoices_to_drive authOk connOk invoices).failed
        = (load_invoices_to_drive authOk connOk invoices).total
      ∧ 0 < (load_invoices_to_drive authOk connOk invoices).total) := by
  subst hA
  subst hC
  refine ⟨rfl, ?_, ?_⟩ <;>
    cases hinv : invoices with
    | nil => simp [load_invoices_to_drive]
    | cons b rest => ?_
  · have hsum := countP_add_countP_not (fun x => x == ItemBehavior.succeeds) (b :: rest)
    rw [load_invoices_nonempty (b :: rest) (by simp)]
    simp only [beq_iff_eq, List.length_cons]
    have hov : (if List.countP (fun x => x == ItemBehavior.succeeds) (b :: rest)
          = rest.length + 1 then true
        else if 0 < List.countP (fun x => x == ItemBehavior.succeeds) (b :: rest)
          then true else false) = true
        ↔ 1 ≤ List.countP (fun x => x == ItemBehavior.succeeds) (b :: rest) := by
      split_ifs with h1 h2
      · simp only [true_iff]
        omega
      · simp only [true_iff]
        omega
      · simp only [Bool.false_eq_true, false_iff]
        omega
    rw [hov]
    simp
  · have hsum := countP_add_countP_not (fun x => x == ItemBehavior.succeeds) (b :: rest)
    rw [load_invoices_nonempty (b :: rest) (by simp)]
    simp only [beq_iff_eq, List.length_cons]
    intro hov
    split_ifs at hov with h1 h2
    simp only [List.length_cons] at hsum
    refine ⟨?_, by simp⟩
    show (b :: rest).countP (fun x => !(x == ItemBehavior.succeeds))
        = rest.length + 1
    omega

/-- Witness for C6: a singleton batch whose item fails is reported as a
failed batch with `failed = total = 1`; the empty batch is a success. -/
theorem batch_success_policy_witness :
    load_invoices_to_drive true true [] = BatchSummary.mk 0 0 0 true
  ∧ ((load_invoices_to_drive true true [ItemBehavior.returnsFalse]).overall = true ↔
      ([ItemBehavior.returnsFalse] = ([] : List ItemBehavior)
        ∨ 1 ≤ (load_invoices_to_drive true true [ItemBehavior.returnsFalse]).succeeded))
  ∧ ((load_invoices_to_drive true true [ItemBehavior.returnsFalse]).overall = false →
      (load_invoices_to_drive true true [ItemBehavior.returnsFalse]).failed
        = (load_invoices_to_drive true true [ItemBehavior.returnsFalse]).total
      ∧ 0 < (load_invoices_to_drive true true [ItemBehavior.returnsFalse]).total) :=
  batch_success_policy true true [ItemBehavior.returnsFalse] rfl rfl

/-- After one pass the registry retains exactly the paths that existed on
disk and whose unlink raised. -/
theorem delayedGo_remaining (raises : String → Bool) :
    ∀ d : List String, ∀ fs : String → Bool,
      (delayedGo raises fs d).remaining
        = d.filter (fun q => fs q && raises q) := by
  intro d
  induction d with
  | nil => intro fs; simp [delayedGo]
  | cons p rest ih =>
    intro fs
    by_cases hp : fs p = true
    · by_cases hr : raises p = true
      · simp [delayedGo, hp, hr, List.filter_cons, ih]
      · have hr2 : raises p = false := by simpa using hr
        simp only [delayedGo, hp, hr2, if_true, if_false, Bool.false_eq_true]
        rw [ih, List.filter_cons]
        simp only [hp, hr2, Bool.and_false, if_false, Bool.false_eq_true]
        apply List.filter_congr
        intro q hq
        by_cases hqp : (q == p) = true
        · have hq2 : q = p := by simpa using hqp
          subst hq2
          simp [hr2]
        · have hqp2 : (q == p) = false := by simpa using hqp
          simp [hqp2]
    · have hp2 : fs p = false := by simpa using hp
      simp [delayedGo, hp2, List.filter_cons, ih]

/-- Every path on which the pass attempted an unlink existed on disk when the
pass started. -/
theorem delayedGo_unlinked (raises : String → Bool) :
    ∀ d : List String, ∀ fs : String → Bool, ∀ q,
      q ∈ (delayedGo raises fs d).unlinked → fs q = true := by
  intro d
  induction d with
  | nil => intro fs q hq; simp [delayedGo] at hq
  | cons p rest ih =>
    intro fs q hq
    by_cases hp : fs p = true
    · by_cases hr : raises p = true
      · simp only [delayedGo, hp, hr, if_true] at hq
        rcases List.mem_cons.mp hq with h | h
        · rw [h]; exact hp
        · exact ih fs q h
      · have hr2 : raises p = false := by simpa using hr
        simp only [delayedGo, hp, hr2, if_true, if_false, Bool.false_eq_true] at hq
        rcases List.mem_cons.mp hq with h | h
        · rw [h]; exact hp
        · have hfs2 := ih (fun x => if x == p then false else fs x) q h
          by_cases hqp : (q == p) = true
          · simp [hqp] at hfs2
          · have hqp2 : (q == p) = false := by simpa using hqp
            simp only [hqp2, Bool.false_eq_true, if_false] at hfs2
            exact hfs2
    · have hp2 : fs p = false := by simpa using hp
      simp only [delayedGo, hp2, Bool.false_eq_true, if_false] at hq
      exact ih fs q hq

/-- The cleaned counter equals the number of attempted unlinks that did not
raise. -/
theorem delayedGo_cleaned (raises : String → Bool) :
    ∀ d : List String, ∀ fs : String → Bool,
      (delayedGo raises fs d).cleaned
        = ((delayedGo raises fs d).unlinked.filter
            (fun q => !(raises q))).length := by
  intro d
  induction d with
  | nil => intro fs; simp [delayedGo]
  | cons p rest ih =>
    intro fs
    by_cases hp : fs p = true
    · by_cases hr : raises p = true
      · simp [delayedGo, hp, hr, List.filter_cons, ih]
      · have hr2 : raises p = false := by simpa using hr
        simp [delayedGo, hp, hr2, List.filter_cons, ih]
    · have hp2 : fs p = false := by simpa using hp
      simp [delayedGo, hp2, ih]

/-- C10: after a reconciliation pass of `cleanup_delayed_files`, the registry
contains exactly the registered paths that still existed on disk and whose
deletion attempt raised; a registered path that no longer exists is removed
from the registry without any deletion attempt and without being counted
among the cleaned files (the cleaned count equals the number of attempted
unlinks that did not raise). -/
theorem delayed_registry_reconcile (raises : String → Bool)
    (fs : String → Bool) (delayed : List String) (p : String)
    (hp : fs p = false) :
    (cleanup_delayed_files raises fs delayed).remaining
      = delayed.filter (fun q => fs q && raises q)
  ∧ p ∉ (cleanup_delayed_files raises fs delayed).unlinked
  ∧ p ∉ (cleanup_delayed_files raises fs delayed).remaining
  ∧ (cleanup_delayed_files raises fs delayed).cleaned
      = ((cleanup_delayed_files raises fs delayed).unlinked.filter
          (fun q => !(raises q))).length := by
  refine ⟨delayedGo_remaining raises delayed fs, ?_, ?_,
    delayedGo_cleaned raises delayed fs⟩
  · intro hmem
    have := delayedGo_unlinked raises delayed fs p hmem
    rw [hp] at this
    exact Bool.false_ne_true this
  · show p ∉ (delayedGo raises fs delayed).remaining
    rw [delayedGo_remaining raises delayed fs]
    intro hmem
    have := List.of_mem_filter hmem
    rw [hp] at this
    simp at this

/-- Witness for C10: registry `[a, b, c]` where `a` and `b` exist, unlinking
`a` raises, and `c` is gone from disk: the pass keeps exactly `a`, never
touches `c`, and counts one cleaned file. -/
theorem delayed_registry_reconcile_witness :
    (cleanup_delayed_files (fun q => q == "a")
        (fun q => q == "a" || q == "b") ["a", "b", "c"]).remaining
      = ["a", "b", "c"].filter
          (fun q => (fun x => x == "a" || x == "b") q && (fun x => x == "a") q)
  ∧ "c" ∉ (cleanup_delayed_files (fun q => q == "a")
        (fun q => q == "a" || q == "b") ["a", "b", "c"]).unlinked
  ∧ "c" ∉ (cleanup_delayed_files (fun q => q == "a")
        (fun q => q == "a" || q == "b") ["a", "b", "c"]).remaining
  ∧ (cleanup_delayed_files (fun q => q == "a")
        (fun q => q == "a" || q == "b") ["a", "b", "c"]).cleaned
      = ((cleanup_delayed_files (fun q => q == "a")
            (fun q => q == "a" || q == "b") ["a", "b", "c"]).unlinked.filter
          (fun q => !((fun x => x == "a") q))).length :=
  delayed_registry_reconcile (fun q => q == "a")
    (fun q => q == "a" || q == "b") ["a", "b", "c"] "c" rfl

/-- Witness for C4 amended: with every unlink raising `PermissionError`, the
staging file ends up registered in the deferred-cleanup registry. -/
theorem staging_release_amended_witness :
    (upload_invoice_json oUnlinkPerm "inv1.json" "F" st0).st.localFs "tmp1" = false
  ∨ "tmp1" ∈ (upload_invoice_json oUnlinkPerm "inv1.json" "F" st0).st.delayed
  ∨ ∃ c, (upload_invoice_json oUnlinkPerm "inv1.json" "F" st0).trace.cleanup = some c
      ∧ c.broke = true :=
  staging_release_amended oUnlinkPerm "inv1.json" "F" st0 "tmp1" (by decide)

end InvoiceETL
